import Mathlib

/-!
Shallow embedding of the simulation core of the "Breach & Clear" arcade game
(source: src/app/index.tsx).  JS numbers are modelled as rationals (the
simulation only performs field operations, comparisons, floor, min/max and
absolute value on them); the integer-valued resources (energy, health, score,
wave, block identifiers) are modelled as integers.

Randomness and trigonometry: the source draws a launch angle uniformly in
[30°, 150°] and uses `Math.cos` / `Math.sin` of it, plus uniform draws for
positions and a sign coin.  The embedding replaces each such draw by an
explicit oracle value: an `AngleDraw` carries the pair (cos θ, sin θ) of the
drawn angle, and a `SpawnDraw` additionally carries the sign and the two
uniform [0,1] fractions.  `SpawnOK` records exactly what the source
guarantees about a draw (cos² + sin² = 1, sin θ ≥ 1/2 on [30°,150°], sign
is ±1, fractions in [0,1]).  The escalation renormalization computes
`cos (atan2 vy vx)` and `sin (atan2 vy vx)`; these are likewise supplied by
an oracle `AngleDraw`, and `AtanOK` records the defining property of
atan2 (the pair is a unit vector and a non-negative multiple of (vx, vy)).
-/

namespace Breach

/-- Constants from src/app/index.tsx lines 72-82. -/
def BALL_RADIUS : ℚ := 13

def BLOCK_H : ℚ := 36

def MAX_ENERGY : ℤ := 8

def MAX_HEALTH : ℤ := 5

def ENERGY_REGEN_MS : ℚ := 900

def ESCALATION_MS : ℚ := 15000

def INITIAL_SPEED : ℚ := 9/2

def SPEED_STEP : ℚ := 6/5

def COLS : ℚ := 8

def BALL_COLORS : List String := ["#ff1744", "#ff9100", "#d500f9"]

def ballColor (i : ℕ) : String := BALL_COLORS.getD (i % 3) ""

inductive GamePhase
  | IDLE
  | PLAYING
  | DEAD
deriving DecidableEq

structure Block where
  id : ℤ
  x : ℚ
  y : ℚ
  w : ℚ
  h : ℚ
  color : String
deriving DecidableEq

structure Ball where
  x : ℚ
  y : ℚ
  vx : ℚ
  vy : ℚ
  color : String
  radius : ℚ
deriving DecidableEq

structure GameState where
  balls : List Ball
  blocks : List Block
  energy : ℤ
  health : ℤ
  score : ℤ
  wave : ℤ
  speed : ℚ
  lastEnergyRegen : ℚ
  lastEscalation : ℚ
  blockIdCounter : ℤ
  phase : GamePhase
deriving DecidableEq

/-- The engine state: the authoritative `GameState` ref plus the
`lastFrameRef` timestamp ref (0 is the "no previous frame" sentinel). -/
structure Engine where
  gs : GameState
  lastFrame : ℚ
deriving DecidableEq

/-- Oracle value standing for (cos θ, sin θ) of an angle draw or an atan2. -/
structure AngleDraw where
  c : ℚ
  s : ℚ
deriving DecidableEq

/-- Oracle values consumed by one call of `makeBall` or one breach respawn. -/
structure SpawnDraw where
  ang : AngleDraw
  sgn : ℚ
  fx : ℚ
  fy : ℚ
deriving DecidableEq

/-- What the source guarantees about a spawn draw: the angle pair is
(cos θ, sin θ) for θ ∈ [30°, 150°] (unit vector, sin θ ≥ 1/2), the sign coin
is ±1 and the position fractions are in [0, 1]. -/
def SpawnOK (d : SpawnDraw) : Prop :=
  d.ang.c ^ 2 + d.ang.s ^ 2 = 1 ∧ 1/2 ≤ d.ang.s ∧
    (d.sgn = 1 ∨ d.sgn = -1) ∧
    0 ≤ d.fx ∧ d.fx ≤ 1 ∧ 0 ≤ d.fy ∧ d.fy ≤ 1

instance (d : SpawnDraw) : Decidable (SpawnOK d) :=
  inferInstanceAs (Decidable (_ ∧ _))

/-- The defining property of (cos (atan2 vy vx), sin (atan2 vy vx)):
a unit vector that is a non-negative multiple of (vx, vy). -/
def AtanOK (a : AngleDraw) (vx vy : ℚ) : Prop :=
  a.c ^ 2 + a.s ^ 2 = 1 ∧ ∃ n : ℚ, 0 ≤ n ∧ a.c * n = vx ∧ a.s * n = vy

/-- makeBall (index.tsx lines 96-108): angle in [30°,150°], x in
[radius, arenaW − radius], y in [radius+20, radius+80], random sign on vx,
vy forced non-negative. -/
def makeBall (arenaW speed : ℚ) (d : SpawnDraw) (colorIdx : ℕ) : Ball :=
  { x := BALL_RADIUS + d.fx * (arenaW - BALL_RADIUS * 2)
    y := BALL_RADIUS + 20 + d.fy * 60
    vx := d.ang.c * speed * d.sgn
    vy := |d.ang.s * speed|
    color := ballColor colorIdx
    radius := BALL_RADIUS }

/-- State mutated by the per-ball loop of gameLoop (the fields of the game
state that the loop body can touch besides the balls themselves). -/
structure LoopSt where
  blocks : List Block
  health : ℤ
  score : ℤ
  phase : GamePhase
deriving DecidableEq

/-- handleCoreDamage (index.tsx lines 178-189): clamp health at 0 and
switch the phase to DEAD when it reaches 0.  Haptics/animation are
side-channel effects with no simulation state. -/
def handleCoreDamage (st : LoopSt) : LoopSt :=
  let h := max 0 (st.health - 1)
  if h ≤ 0 then { st with health := h, phase := GamePhase.DEAD }
  else { st with health := h }

/-- Position integration and wall resolution (index.tsx lines 227-241):
integrate, then left bound, right bound, top bound, each clamping the
position and forcing the velocity sign. -/
def moveBall (arenaW factor : ℚ) (b : Ball) : Ball :=
  let x0 := b.x + b.vx * factor
  let y0 := b.y + b.vy * factor
  let x1 := if x0 - b.radius ≤ 0 then b.radius else x0
  let vx1 := if x0 - b.radius ≤ 0 then |b.vx| else b.vx
  let x2 := if x1 + b.radius ≥ arenaW then arenaW - b.radius else x1
  let vx2 := if x1 + b.radius ≥ arenaW then -|vx1| else vx1
  let y1 := if y0 - b.radius ≤ 0 then b.radius else y0
  let vy1 := if y0 - b.radius ≤ 0 then |b.vy| else b.vy
  { b with x := x2, y := y1, vx := vx2, vy := vy1 }

/-- Squared distance from the ball center to the nearest point of the
block rectangle (index.tsx lines 257-260). -/
def distSq (b : Ball) (blk : Block) : ℚ :=
  let nearX := max blk.x (min b.x (blk.x + blk.w))
  let nearY := max blk.y (min b.y (blk.y + blk.h))
  (b.x - nearX) * (b.x - nearX) + (b.y - nearY) * (b.y - nearY)

/-- Hit test (index.tsx line 261): strictly closer than the radius. -/
def hits (b : Ball) (blk : Block) : Prop :=
  distSq b blk < b.radius * b.radius

instance (b : Ball) (blk : Block) : Decidable (hits b blk) :=
  inferInstanceAs (Decidable (_ < _))

/-- Reflection on block hit (index.tsx lines 263-271): flip the velocity
component of the axis with the smaller overlap and push the position out. -/
def bounce (b : Ball) (blk : Block) : Ball :=
  let nearX := max blk.x (min b.x (blk.x + blk.w))
  let nearY := max blk.y (min b.y (blk.y + blk.h))
  let dx := b.x - nearX
  let dy := b.y - nearY
  let overlapX := b.radius - |dx|
  let overlapY := b.radius - |dy|
  if overlapX < overlapY then
    let vx' := -b.vx
    { b with vx := vx', x := b.x + (if vx' > 0 then overlapX else -overlapX) }
  else
    let vy' := -b.vy
    { b with vy := vy', y := b.y + (if vy' > 0 then overlapY else -overlapY) }

/-- The inner obstacle loop (index.tsx lines 254-274): scan the blocks in
list order, stop at the first hit, return its index and the reflected
ball. -/
def collideBlocks (b : Ball) : List Block → Option (ℕ × Ball)
  | [] => none
  | blk :: rest =>
    if hits b blk then some (0, bounce b blk)
    else (collideBlocks b rest).map fun p => (p.1 + 1, p.2)

/-- In-place respawn after a breach (index.tsx lines 245-249): new random
x across the arena, y in the band [radius+20, radius+60], fresh downward
angle at the current global speed. -/
def respawnBall (arenaW speed : ℚ) (d : SpawnDraw) (b : Ball) : Ball :=
  { b with
    x := b.radius + d.fx * (arenaW - b.radius * 2)
    y := b.radius + 20 + d.fy * 40
    vx := d.ang.c * speed * d.sgn
    vy := |d.ang.s * speed| }

/-- One iteration of the per-ball loop body (index.tsx lines 225-281):
move and resolve walls, then either breach (damage + unconditional
respawn, skipping the obstacle scan) or scan the obstacles, removing the
first hit and scoring 10. -/
def stepBall (arenaW arenaH speed factor : ℚ) (d : SpawnDraw) (b : Ball)
    (st : LoopSt) : Ball × LoopSt :=
  let b1 := moveBall arenaW factor b
  if b1.y + b1.radius ≥ arenaH then
    (respawnBall arenaW speed d b1, handleCoreDamage st)
  else
    match collideBlocks b1 st.blocks with
    | none => (b1, st)
    | some (i, b2) =>
      (b2, { st with blocks := st.blocks.eraseIdx i, score := st.score + 10 })

/-- The full ball loop, threading the loop state left to right; the index
selects the oracle draw used if that ball breaches. -/
def runBalls (arenaW arenaH speed factor : ℚ) (o : ℕ → SpawnDraw) :
    ℕ → List Ball → LoopSt → List Ball × LoopSt
  | _, [], st => ([], st)
  | i, b :: rest, st =>
    let p := stepBall arenaW arenaH speed factor (o i) b st
    let q := runBalls arenaW arenaH speed factor o (i + 1) rest p.2
    (p.1 :: q.1, q.2)

/-- Energy regeneration (index.tsx lines 200-205): at most one unit per
tick, timestamp reset whenever the interval has elapsed. -/
def regen (ts : ℚ) (gs : GameState) : GameState :=
  if ts - gs.lastEnergyRegen ≥ ENERGY_REGEN_MS then
    if gs.energy < MAX_ENERGY then
      { gs with energy := min MAX_ENERGY (gs.energy + 1), lastEnergyRegen := ts }
    else { gs with lastEnergyRegen := ts }
  else gs

/-- Escalation renormalization of one ball (index.tsx lines 214-216):
`vx := cos (atan2 vy vx) * speed`, `vy := sin (atan2 vy vx) * speed`,
with the atan2 trig pair supplied by the oracle. -/
def renormBall (speed : ℚ) (a : AngleDraw) (b : Ball) : Ball :=
  { b with vx := a.c * speed, vy := a.s * speed }

/-- Renormalize every ball, indexing the oracle by list position. -/
def renormAll (speed : ℚ) (a : ℕ → AngleDraw) : ℕ → List Ball → List Ball
  | _, [] => []
  | i, b :: rest => renormBall speed (a i) b :: renormAll speed a (i + 1) rest

/-- All oracle values one tick may consume. -/
structure TickOracle where
  escSpawn : SpawnDraw
  renorm : ℕ → AngleDraw
  respawn : ℕ → SpawnDraw

/-- Escalation (index.tsx lines 207-221): wave + 1; below the population
cap spawn one ball at the current speed, otherwise bump the speed and
renormalize every ball; reset the escalation timestamp in both branches. -/
def escalate (arenaW ts : ℚ) (o : TickOracle) (gs : GameState) : GameState :=
  if ts - gs.lastEscalation ≥ ESCALATION_MS then
    let gs1 := { gs with wave := gs.wave + 1 }
    let gs2 :=
      if gs1.balls.length < 3 then
        { gs1 with balls :=
            gs1.balls ++ [makeBall arenaW gs1.speed o.escSpawn gs1.balls.length] }
      else
        let s' := gs1.speed + SPEED_STEP
        { gs1 with speed := s', balls := renormAll s' o.renorm 0 gs1.balls }
    { gs2 with lastEscalation := ts }
  else gs

/-- Frame-time factor (index.tsx lines 195-198): a zero `lastFrame` is the
"no previous frame" sentinel, dt is capped above at 33 ms (and not below),
and the factor is dt over the 16.67 ms reference frame. -/
def tickFactor (ts lf : ℚ) : ℚ :=
  min (ts - (if lf = 0 then ts else lf)) 33 / (1667/100)

/-- gameLoop (index.tsx lines 191-286): bail out unless PLAYING, derive
the frame factor (dt capped above at 33 ms, reference frame 16.67 ms),
regenerate energy, escalate, then run the per-ball loop. -/
def tick (arenaW arenaH : ℚ) (o : TickOracle) (ts : ℚ) (e : Engine) : Engine :=
  if e.gs.phase ≠ GamePhase.PLAYING then e
  else
    let gs2 := escalate arenaW ts o (regen ts e.gs)
    let r := runBalls arenaW arenaH gs2.speed (tickFactor ts e.lastFrame)
      o.respawn 0 gs2.balls ⟨gs2.blocks, gs2.health, gs2.score, gs2.phase⟩
    { gs :=
        { gs2 with
          balls := r.1
          blocks := r.2.blocks
          health := r.2.health
          score := r.2.score
          phase := r.2.phase }
      lastFrame := ts }

/-- startGame (index.tsx lines 288-305). -/
def startGame (arenaW : ℚ) (d : SpawnDraw) : Engine :=
  { gs := { balls := [makeBall arenaW INITIAL_SPEED d 0]
            blocks := []
            energy := MAX_ENERGY
            health := MAX_HEALTH
            score := 0
            wave := 1
            speed := INITIAL_SPEED
            lastEnergyRegen := 0
            lastEscalation := 0
            blockIdCounter := 0
            phase := GamePhase.PLAYING }
    lastFrame := 0 }

inductive PlaceResult
  | placed
  | rejNotPlaying
  | rejInsufficientEnergy
  | rejOccupied
deriving DecidableEq

/-- Snapped x origin of the tapped grid cell: `floor(tapX / cellW) * cellW`
with `cellW = arenaW / COLS` (index.tsx lines 335-337). -/
def cellOriginX (arenaW tapX : ℚ) : ℚ :=
  (⌊tapX / (arenaW / COLS)⌋ : ℤ) * (arenaW / COLS)

/-- Snapped y origin of the tapped grid cell: `floor(tapY / BLOCK_H) * BLOCK_H`
(index.tsx lines 336-338). -/
def cellOriginY (tapY : ℚ) : ℚ :=
  (⌊tapY / BLOCK_H⌋ : ℤ) * BLOCK_H

/-- Occupancy check (index.tsx lines 340-342): some live block sits within
1 unit of the snapped origin on both axes. -/
def occupiedAt (blocks : List Block) (bx oy : ℚ) : Prop :=
  ∃ b ∈ blocks, |b.x - bx| < 1 ∧ |b.y - oy| < 1

instance (blocks : List Block) (bx oy : ℚ) : Decidable (occupiedAt blocks bx oy) :=
  inferInstanceAs (Decidable (∃ b ∈ blocks, _ ∧ _))

/-- handleArenaTap (index.tsx lines 323-357).  The random block color is
an oracle argument; the returned `PlaceResult` records which early return
was taken (warning haptic = insufficient energy, silent = occupied). -/
def handleArenaTap (arenaW : ℚ) (color : String) (tapX tapY : ℚ)
    (gs : GameState) : GameState × PlaceResult :=
  if gs.phase ≠ GamePhase.PLAYING then (gs, PlaceResult.rejNotPlaying)
  else if gs.energy ≤ 0 then (gs, PlaceResult.rejInsufficientEnergy)
  else
    let bx := cellOriginX arenaW tapX
    let oy := cellOriginY tapY
    if occupiedAt gs.blocks bx oy then (gs, PlaceResult.rejOccupied)
    else
      ({ gs with energy := gs.energy - 1
                 blockIdCounter := gs.blockIdCounter + 1
                 blocks := gs.blocks ++
                   [{ id := gs.blockIdCounter + 1, x := bx, y := oy,
                      w := arenaW / COLS, h := BLOCK_H, color := color }] },
       PlaceResult.placed)

/-- Well-formedness of a tick oracle: every draw satisfies what the source
random/trig calls guarantee (unit trig pairs, sin ≥ 1/2, sign ±1,
fractions in [0,1]). -/
def OracleOK (o : TickOracle) : Prop :=
  SpawnOK o.escSpawn ∧ (∀ i, SpawnOK (o.respawn i)) ∧
    (∀ i, (o.renorm i).c ^ 2 + (o.renorm i).s ^ 2 = 1)

/-- States reachable through the exposed operations: session start, ticks
with well-formed oracles, and placement taps. -/
inductive Reachable (arenaW arenaH : ℚ) : Engine → Prop
  | start (d : SpawnDraw) (hd : SpawnOK d) :
      Reachable arenaW arenaH (startGame arenaW d)
  | step (e : Engine) (o : TickOracle) (ts : ℚ) (ho : OracleOK o)
      (he : Reachable arenaW arenaH e) :
      Reachable arenaW arenaH (tick arenaW arenaH o ts e)
  | place (e : Engine) (color : String) (x y : ℚ)
      (he : Reachable arenaW arenaH e) :
      Reachable arenaW arenaH
        ⟨(handleArenaTap arenaW color x y e.gs).1, e.lastFrame⟩

/-! ### Projection lemmas for the tick components -/

lemma regen_balls (ts : ℚ) (gs : GameState) : (regen ts gs).balls = gs.balls := by
  unfold regen; split_ifs <;> rfl

lemma regen_speed (ts : ℚ) (gs : GameState) : (regen ts gs).speed = gs.speed := by
  unfold regen; split_ifs <;> rfl

lemma regen_health (ts : ℚ) (gs : GameState) : (regen ts gs).health = gs.health := by
  unfold regen; split_ifs <;> rfl

lemma regen_wave (ts : ℚ) (gs : GameState) : (regen ts gs).wave = gs.wave := by
  unfold regen; split_ifs <;> rfl

lemma regen_blocks (ts : ℚ) (gs : GameState) : (regen ts gs).blocks = gs.blocks := by
  unfold regen; split_ifs <;> rfl

lemma regen_score (ts : ℚ) (gs : GameState) : (regen ts gs).score = gs.score := by
  unfold regen; split_ifs <;> rfl

lemma regen_phase (ts : ℚ) (gs : GameState) : (regen ts gs).phase = gs.phase := by
  unfold regen; split_ifs <;> rfl

lemma regen_energy_le (ts : ℚ) (gs : GameState) :
    (regen ts gs).energy ≤ gs.energy + 1 := by
  simp only [regen, MAX_ENERGY]; split_ifs <;> simp_all <;> omega

lemma regen_energy_bounds (ts : ℚ) (gs : GameState)
    (h0 : 0 ≤ gs.energy) (h1 : gs.energy ≤ MAX_ENERGY) :
    0 ≤ (regen ts gs).energy ∧ (regen ts gs).energy ≤ MAX_ENERGY := by
  simp only [regen, MAX_ENERGY] at *; split_ifs <;> simp_all <;> omega

lemma escalate_energy (arenaW ts : ℚ) (o : TickOracle) (gs : GameState) :
    (escalate arenaW ts o gs).energy = gs.energy := by
  simp only [escalate]; split_ifs <;> rfl

lemma escalate_health (arenaW ts : ℚ) (o : TickOracle) (gs : GameState) :
    (escalate arenaW ts o gs).health = gs.health := by
  simp only [escalate]; split_ifs <;> rfl

lemma escalate_blocks (arenaW ts : ℚ) (o : TickOracle) (gs : GameState) :
    (escalate arenaW ts o gs).blocks = gs.blocks := by
  simp only [escalate]; split_ifs <;> rfl

lemma escalate_score (arenaW ts : ℚ) (o : TickOracle) (gs : GameState) :
    (escalate arenaW ts o gs).score = gs.score := by
  simp only [escalate]; split_ifs <;> rfl

lemma escalate_phase (arenaW ts : ℚ) (o : TickOracle) (gs : GameState) :
    (escalate arenaW ts o gs).phase = gs.phase := by
  simp only [escalate]; split_ifs <;> rfl

lemma escalate_wave_le (arenaW ts : ℚ) (o : TickOracle) (gs : GameState) :
    (escalate arenaW ts o gs).wave ≤ gs.wave + 1 := by
  simp only [escalate]; split_ifs <;> simp

lemma tick_not_playing (arenaW arenaH : ℚ) (o : TickOracle) (ts : ℚ) (e : Engine)
    (h : e.gs.phase ≠ GamePhase.PLAYING) : tick arenaW arenaH o ts e = e := by
  unfold tick; rw [if_pos h]

lemma tick_eq (arenaW arenaH : ℚ) (o : TickOracle) (ts : ℚ) (e : Engine)
    (h : e.gs.phase = GamePhase.PLAYING) :
    tick arenaW arenaH o ts e =
      (let gs2 := escalate arenaW ts o (regen ts e.gs)
      let r := runBalls arenaW arenaH gs2.speed (tickFactor ts e.lastFrame)
        o.respawn 0 gs2.balls ⟨gs2.blocks, gs2.health, gs2.score, gs2.phase⟩
      ⟨{ gs2 with balls := r.1, blocks := r.2.blocks, health := r.2.health,
                  score := r.2.score, phase := r.2.phase }, ts⟩) := by
  unfold tick; rw [if_neg (by simp [h])]

/-! ### Speed-magnitude lemmas -/

lemma makeBall_normSq (arenaW sp : ℚ) (d : SpawnDraw) (i : ℕ)
    (hu : d.ang.c ^ 2 + d.ang.s ^ 2 = 1) (hs : d.sgn = 1 ∨ d.sgn = -1) :
    (makeBall arenaW sp d i).vx ^ 2 + (makeBall arenaW sp d i).vy ^ 2 = sp ^ 2 := by
  simp only [makeBall, sq_abs]
  rcases hs with h | h <;> rw [h] <;> linear_combination sp ^ 2 * hu

lemma respawnBall_normSq (arenaW sp : ℚ) (d : SpawnDraw) (b : Ball)
    (hu : d.ang.c ^ 2 + d.ang.s ^ 2 = 1) (hs : d.sgn = 1 ∨ d.sgn = -1) :
    (respawnBall arenaW sp d b).vx ^ 2 + (respawnBall arenaW sp d b).vy ^ 2 = sp ^ 2 := by
  simp only [respawnBall, sq_abs]
  rcases hs with h | h <;> rw [h] <;> linear_combination sp ^ 2 * hu

lemma moveBall_normSq (arenaW factor : ℚ) (b : Ball) :
    (moveBall arenaW factor b).vx ^ 2 + (moveBall arenaW factor b).vy ^ 2 =
      b.vx ^ 2 + b.vy ^ 2 := by
  simp only [moveBall]
  split_ifs <;> simp [sq_abs, neg_sq]

lemma moveBall_radius (arenaW factor : ℚ) (b : Ball) :
    (moveBall arenaW factor b).radius = b.radius := by
  simp only [moveBall]

lemma bounce_normSq (b : Ball) (blk : Block) :
    (bounce b blk).vx ^ 2 + (bounce b blk).vy ^ 2 = b.vx ^ 2 + b.vy ^ 2 := by
  simp only [bounce]
  split_ifs <;> simp [neg_sq]

lemma collideBlocks_normSq (b : Ball) :
    ∀ (l : List Block) (i : ℕ) (b2 : Ball), collideBlocks b l = some (i, b2) →
      b2.vx ^ 2 + b2.vy ^ 2 = b.vx ^ 2 + b.vy ^ 2 := by
  intro l
  induction l with
  | nil => intro i b2 h; simp [collideBlocks] at h
  | cons blk rest ih =>
    intro i b2 h
    by_cases hb : hits b blk
    · simp only [collideBlocks, if_pos hb, Option.some.injEq, Prod.mk.injEq] at h
      rw [← h.2]
      exact bounce_normSq b blk
    · simp only [collideBlocks, if_neg hb, Option.map_eq_some'] at h
      obtain ⟨p, hp, hpe⟩ := h
      cases hpe
      exact ih p.1 p.2 hp

lemma stepBall_normSq (arenaW arenaH sp factor : ℚ) (d : SpawnDraw) (b : Ball)
    (st : LoopSt) (hd : SpawnOK d) (hb : b.vx ^ 2 + b.vy ^ 2 = sp ^ 2) :
    (stepBall arenaW arenaH sp factor d b st).1.vx ^ 2 +
      (stepBall arenaW arenaH sp factor d b st).1.vy ^ 2 = sp ^ 2 := by
  simp only [stepBall]
  split_ifs with hbr
  · exact respawnBall_normSq arenaW sp d _ hd.1 hd.2.2.1
  · rcases hcol : collideBlocks (moveBall arenaW factor b) st.blocks with _ | ⟨i, b2⟩ <;>
      simp only [hcol]
    · rw [moveBall_normSq, hb]
    · rw [collideBlocks_normSq _ _ _ _ hcol, moveBall_normSq, hb]

lemma runBalls_normSq (arenaW arenaH sp factor : ℚ) (o : ℕ → SpawnDraw)
    (ho : ∀ i, SpawnOK (o i)) :
    ∀ (i : ℕ) (l : List Ball) (st : LoopSt),
      (∀ b ∈ l, b.vx ^ 2 + b.vy ^ 2 = sp ^ 2) →
      ∀ b' ∈ (runBalls arenaW arenaH sp factor o i l st).1,
        b'.vx ^ 2 + b'.vy ^ 2 = sp ^ 2 := by
  intro i l
  induction l generalizing i with
  | nil => intro st _ b' hb'; simp [runBalls] at hb'
  | cons b rest ih =>
    intro st hl b' hb'
    simp only [runBalls, List.mem_cons] at hb'
    rcases hb' with hb' | hb'
    · rw [hb']
      exact stepBall_normSq _ _ _ _ _ _ _ (ho i) (hl b (by simp))
    · exact ih (i + 1) _ (fun c hc => hl c (by simp [hc])) b' hb'

lemma runBalls_length (arenaW arenaH sp factor : ℚ) (o : ℕ → SpawnDraw) :
    ∀ (i : ℕ) (l : List Ball) (st : LoopSt),
      (runBalls arenaW arenaH sp factor o i l st).1.length = l.length := by
  intro i l
  induction l generalizing i with
  | nil => intro st; rfl
  | cons b rest ih => intro st; simp [runBalls, ih]

/-! ### Loop-state lemmas -/

lemma handleCoreDamage_health (st : LoopSt) :
    (handleCoreDamage st).health = max 0 (st.health - 1) := by
  simp only [handleCoreDamage]; split_ifs <;> rfl

lemma handleCoreDamage_blocks (st : LoopSt) :
    (handleCoreDamage st).blocks = st.blocks := by
  simp only [handleCoreDamage]; split_ifs <;> rfl

lemma handleCoreDamage_score (st : LoopSt) :
    (handleCoreDamage st).score = st.score := by
  simp only [handleCoreDamage]; split_ifs <;> rfl

/-- After any damage application, zero health forces the DEAD phase. -/
lemma handleCoreDamage_HP (st : LoopSt) :
    (handleCoreDamage st).health = 0 → (handleCoreDamage st).phase = GamePhase.DEAD := by
  simp only [handleCoreDamage]
  split_ifs with h <;> intro h0
  · rfl
  · dsimp only at h0
    omega

lemma stepBall_health (arenaW arenaH sp factor : ℚ) (d : SpawnDraw) (b : Ball)
    (st : LoopSt) :
    (stepBall arenaW arenaH sp factor d b st).2.health = st.health ∨
      (stepBall arenaW arenaH sp factor d b st).2.health = max 0 (st.health - 1) := by
  simp only [stepBall]
  split_ifs
  · right; exact handleCoreDamage_health st
  · rcases hcol : collideBlocks (moveBall arenaW factor b) st.blocks with _ | ⟨i, b2⟩ <;>
      simp [hcol]

/-- The ball loop body can only lower health or leave it unchanged, and a
zero-health loop state entering DEAD remains DEAD: "health = 0 implies
phase = DEAD" is preserved by each ball. -/
lemma stepBall_HP (arenaW arenaH sp factor : ℚ) (d : SpawnDraw) (b : Ball)
    (st : LoopSt) (h : st.health = 0 → st.phase = GamePhase.DEAD) :
    (stepBall arenaW arenaH sp factor d b st).2.health = 0 →
      (stepBall arenaW arenaH sp factor d b st).2.phase = GamePhase.DEAD := by
  simp only [stepBall]
  split_ifs
  · exact handleCoreDamage_HP st
  · rcases hcol : collideBlocks (moveBall arenaW factor b) st.blocks with _ | ⟨i, b2⟩ <;>
      simpa [hcol] using h

lemma runBalls_HP (arenaW arenaH sp factor : ℚ) (o : ℕ → SpawnDraw) :
    ∀ (i : ℕ) (l : List Ball) (st : LoopSt),
      (st.health = 0 → st.phase = GamePhase.DEAD) →
      (runBalls arenaW arenaH sp factor o i l st).2.health = 0 →
        (runBalls arenaW arenaH sp factor o i l st).2.phase = GamePhase.DEAD := by
  intro i l
  induction l generalizing i with
  | nil => intro st h; exact h
  | cons b rest ih =>
    intro st h
    exact ih (i + 1) _ (stepBall_HP arenaW arenaH sp factor (o i) b st h)

lemma stepBall_health_bounds (arenaW arenaH sp factor : ℚ) (d : SpawnDraw)
    (b : Ball) (st : LoopSt) (h0 : 0 ≤ st.health) (h1 : st.health ≤ MAX_HEALTH) :
    0 ≤ (stepBall arenaW arenaH sp factor d b st).2.health ∧
      (stepBall arenaW arenaH sp factor d b st).2.health ≤ MAX_HEALTH := by
  rcases stepBall_health arenaW arenaH sp factor d b st with h | h <;> rw [h] <;>
    unfold MAX_HEALTH at * <;> omega

lemma runBalls_health_bounds (arenaW arenaH sp factor : ℚ) (o : ℕ → SpawnDraw) :
    ∀ (i : ℕ) (l : List Ball) (st : LoopSt),
      0 ≤ st.health → st.health ≤ MAX_HEALTH →
      0 ≤ (runBalls arenaW arenaH sp factor o i l st).2.health ∧
        (runBalls arenaW arenaH sp factor o i l st).2.health ≤ MAX_HEALTH := by
  intro i l
  induction l generalizing i with
  | nil => intro st h0 h1; exact ⟨h0, h1⟩
  | cons b rest ih =>
    intro st h0 h1
    have hb := stepBall_health_bounds arenaW arenaH sp factor (o i) b st h0 h1
    exact ih (i + 1) _ hb.1 hb.2

lemma regen_lastRegen (ts : ℚ) (gs : GameState) :
    (regen ts gs).lastEnergyRegen = gs.lastEnergyRegen ∨
      (regen ts gs).lastEnergyRegen = ts := by
  simp only [regen]; split_ifs <;> simp

lemma escalate_lastRegen (arenaW ts : ℚ) (o : TickOracle) (gs : GameState) :
    (escalate arenaW ts o gs).lastEnergyRegen = gs.lastEnergyRegen := by
  simp only [escalate]; split_ifs <;> rfl

lemma escalate_lastEscalation (arenaW ts : ℚ) (o : TickOracle) (gs : GameState) :
    (escalate arenaW ts o gs).lastEscalation = gs.lastEscalation ∨
      (escalate arenaW ts o gs).lastEscalation = ts := by
  simp only [escalate]; split_ifs <;> simp

lemma regen_lastEscalation (ts : ℚ) (gs : GameState) :
    (regen ts gs).lastEscalation = gs.lastEscalation := by
  simp only [regen]; split_ifs <;> rfl

/-- C10: however much time has elapsed since the last regeneration or
escalation (for example after a long pause), one tick raises energy by at
most one unit and the wave counter by at most one: each check fires at
most once per tick, and the timestamps only ever move to the current
tick's timestamp, so missed intervals are never retroactively
compensated. -/
theorem per_tick_increment_caps (arenaW arenaH : ℚ) (o : TickOracle) (ts : ℚ)
    (e : Engine) :
    (tick arenaW arenaH o ts e).gs.energy ≤ e.gs.energy + 1 ∧
    (tick arenaW arenaH o ts e).gs.wave ≤ e.gs.wave + 1 ∧
    ((tick arenaW arenaH o ts e).gs.lastEnergyRegen = e.gs.lastEnergyRegen ∨
      (tick arenaW arenaH o ts e).gs.lastEnergyRegen = ts) ∧
    ((tick arenaW arenaH o ts e).gs.lastEscalation = e.gs.lastEscalation ∨
      (tick arenaW arenaH o ts e).gs.lastEscalation = ts) := by
  by_cases hp : e.gs.phase = GamePhase.PLAYING
  · rw [tick_eq arenaW arenaH o ts e hp]
    refine ⟨?_, ?_, ?_, ?_⟩
    · show (escalate arenaW ts o (regen ts e.gs)).energy ≤ e.gs.energy + 1
      rw [escalate_energy]
      exact regen_energy_le ts e.gs
    · show (escalate arenaW ts o (regen ts e.gs)).wave ≤ e.gs.wave + 1
      calc (escalate arenaW ts o (regen ts e.gs)).wave
          ≤ (regen ts e.gs).wave + 1 := escalate_wave_le arenaW ts o _
        _ = e.gs.wave + 1 := by rw [regen_wave]
    · show (escalate arenaW ts o (regen ts e.gs)).lastEnergyRegen =
          e.gs.lastEnergyRegen ∨
        (escalate arenaW ts o (regen ts e.gs)).lastEnergyRegen = ts
      rw [escalate_lastRegen]
      exact regen_lastRegen ts e.gs
    · show (escalate arenaW ts o (regen ts e.gs)).lastEscalation =
          e.gs.lastEscalation ∨
        (escalate arenaW ts o (regen ts e.gs)).lastEscalation = ts
      rcases escalate_lastEscalation arenaW ts o (regen ts e.gs) with h | h <;>
        rw [h]
      · left; exact regen_lastEscalation ts e.gs
      · right; rfl
  · rw [tick_not_playing arenaW arenaH o ts e hp]
    exact ⟨by omega, by omega, Or.inl rfl, Or.inl rfl⟩

/-! ### C6: placement gating -/

/-- C6: `placeAt` (handleArenaTap) is rejected, with the session state
unchanged, exactly when the phase is not PLAYING, or energy ≤ 0, or the
snapped cell already holds a live obstacle (within epsilon 1); on success
it deducts one energy unit, increments the identifier counter by one, and
appends exactly one obstacle at the snapped cell origin; with energy = 0
it reports the insufficient-energy rejection and the obstacles are
unchanged. -/
theorem placement_gating (arenaW : ℚ) (color : String) (tapX tapY : ℚ)
    (gs : GameState) :
    (((handleArenaTap arenaW color tapX tapY gs).2 ≠ PlaceResult.placed) ↔
      (gs.phase ≠ GamePhase.PLAYING ∨ gs.energy ≤ 0 ∨
        occupiedAt gs.blocks (cellOriginX arenaW tapX) (cellOriginY tapY))) ∧
    ((handleArenaTap arenaW color tapX tapY gs).2 ≠ PlaceResult.placed →
      (handleArenaTap arenaW color tapX tapY gs).1 = gs) ∧
    ((handleArenaTap arenaW color tapX tapY gs).2 = PlaceResult.placed →
      (handleArenaTap arenaW color tapX tapY gs).1.energy = gs.energy - 1 ∧
      (handleArenaTap arenaW color tapX tapY gs).1.blockIdCounter =
        gs.blockIdCounter + 1 ∧
      (handleArenaTap arenaW color tapX tapY gs).1.blocks = gs.blocks ++
        [{ id := gs.blockIdCounter + 1, x := cellOriginX arenaW tapX,
           y := cellOriginY tapY, w := arenaW / COLS, h := BLOCK_H,
           color := color }]) ∧
    (gs.phase = GamePhase.PLAYING → gs.energy = 0 →
      (handleArenaTap arenaW color tapX tapY gs).2 =
        PlaceResult.rejInsufficientEnergy ∧
      (handleArenaTap arenaW color tapX tapY gs).1.blocks = gs.blocks) := by
  simp only [handleArenaTap]
  split_ifs with h1 h2 h3 <;> simp_all <;> omega

/-! ### C8: first-hit obstacle collision -/

lemma collideBlocks_none_iff (b : Ball) :
    ∀ l : List Block, collideBlocks b l = none ↔ ∀ blk ∈ l, ¬ hits b blk := by
  intro l
  induction l with
  | nil => simp [collideBlocks]
  | cons blk rest ih =>
    by_cases hb : hits b blk
    · simp [collideBlocks, hb]
    · simp [collideBlocks, hb, Option.map_eq_none', ih]

lemma collideBlocks_some_first (b : Ball) :
    ∀ (l : List Block) (i : ℕ) (b2 : Ball), collideBlocks b l = some (i, b2) →
      ∃ hi : i < l.length, hits b (l.get ⟨i, hi⟩) ∧
        ∀ (j : ℕ) (hj : j < l.length), j < i → ¬ hits b (l.get ⟨j, hj⟩) := by
  intro l
  induction l with
  | nil => intro i b2 h; simp [collideBlocks] at h
  | cons blk rest ih =>
    intro i b2 h
    by_cases hb : hits b blk
    · simp only [collideBlocks, if_pos hb, Option.some.injEq, Prod.mk.injEq] at h
      obtain ⟨h1, -⟩ := h
      subst h1
      exact ⟨Nat.succ_pos _, hb, fun j hj hji => absurd hji (Nat.not_lt_zero j)⟩
    · simp only [collideBlocks, if_neg hb, Option.map_eq_some'] at h
      obtain ⟨p, hp, hpe⟩ := h
      obtain ⟨hi', hhit, hfirst⟩ := ih p.1 p.2 hp
      cases hpe
      refine ⟨by simpa using Nat.succ_lt_succ hi', by simpa using hhit, ?_⟩
      intro j hj hji
      match j with
      | 0 => simpa using hb
      | j' + 1 =>
        have := hfirst j' (by simpa using hj) (by omega)
        simpa using this

/-- C8: a hit is detected iff the squared center-to-rectangle distance is
strictly below the squared radius (equality is not a hit); obstacles are
scanned in list order stopping at the first hit, so one projectile removes
at most one obstacle per tick, scoring exactly 10 per removal. -/
theorem first_hit_collision (b : Ball) (blocks : List Block) :
    (collideBlocks b blocks = none ↔ ∀ blk ∈ blocks, ¬ hits b blk) ∧
    (∀ blk, hits b blk ↔ distSq b blk < b.radius * b.radius) ∧
    (∀ blk, distSq b blk = b.radius * b.radius → ¬ hits b blk) ∧
    (∀ (i : ℕ) (b2 : Ball), collideBlocks b blocks = some (i, b2) →
      ∃ hi : i < blocks.length, hits b (blocks.get ⟨i, hi⟩) ∧
        ∀ (j : ℕ) (hj : j < blocks.length), j < i →
          ¬ hits b (blocks.get ⟨j, hj⟩)) ∧
    (∀ (arenaW arenaH sp factor : ℚ) (d : SpawnDraw) (st : LoopSt),
      ((stepBall arenaW arenaH sp factor d b st).2.blocks = st.blocks ∧
        (stepBall arenaW arenaH sp factor d b st).2.score = st.score) ∨
      ∃ i : ℕ, i < st.blocks.length ∧
        (stepBall arenaW arenaH sp factor d b st).2.blocks =
          st.blocks.eraseIdx i ∧
        (stepBall arenaW arenaH sp factor d b st).2.score = st.score + 10) := by
  refine ⟨collideBlocks_none_iff b blocks, fun blk => Iff.rfl, ?_, ?_, ?_⟩
  · intro blk he
    simp [hits, he]
  · exact collideBlocks_some_first b blocks
  · intro arenaW arenaH sp factor d st
    simp only [stepBall]
    split_ifs
    · left
      exact ⟨handleCoreDamage_blocks st, handleCoreDamage_score st⟩
    · rcases hcol : collideBlocks (moveBall arenaW factor b) st.blocks
        with _ | ⟨i, b2⟩ <;> simp only [hcol]

      · left
        constructor <;> trivial
      · right
        obtain ⟨hi, -, -⟩ := collideBlocks_some_first _ _ _ _ hcol
        refine ⟨i, hi, ?_, ?_⟩ <;> trivial

/-! ### C7: breach with health above one -/

lemma moveBall_y_no_top_clamp (arenaW factor : ℚ) (b : Ball)
    (h : 0 < b.y + b.vy * factor - b.radius) :
    (moveBall arenaW factor b).y = b.y + b.vy * factor := by
  simp only [moveBall]
  rw [if_neg (by linarith)]

lemma handleCoreDamage_phase_of_health (st : LoopSt) (h : 1 < st.health) :
    (handleCoreDamage st).phase = st.phase := by
  simp only [handleCoreDamage]
  rw [if_neg (by omega)]

/-- C7: when a projectile crosses the bottom bound with health above 1,
health drops by exactly one, the phase stays PLAYING, the obstacle set
and the score are untouched for this projectile (no obstacle-collision
test), and the projectile is respawned in the top band (y within
[radius+20, radius+60]) heading downward (vy > 0) at the current speed. -/
theorem breach_nonterminal (arenaW arenaH sp factor : ℚ) (d : SpawnDraw)
    (b : Ball) (st : LoopSt)
    (hd : SpawnOK d) (hsp : 0 < sp)
    (hph : st.phase = GamePhase.PLAYING) (hh : 1 < st.health)
    (htop : 0 < b.y + b.vy * factor - b.radius)
    (hbr : arenaH ≤ b.y + b.vy * factor + b.radius) :
    (stepBall arenaW arenaH sp factor d b st).2.health = st.health - 1 ∧
    (stepBall arenaW arenaH sp factor d b st).2.phase = GamePhase.PLAYING ∧
    (stepBall arenaW arenaH sp factor d b st).2.blocks = st.blocks ∧
    (stepBall arenaW arenaH sp factor d b st).2.score = st.score ∧
    0 < (stepBall arenaW arenaH sp factor d b st).1.vy ∧
    b.radius + 20 ≤ (stepBall arenaW arenaH sp factor d b st).1.y ∧
    (stepBall arenaW arenaH sp factor d b st).1.y ≤ b.radius + 60 ∧
    (stepBall arenaW arenaH sp factor d b st).1.vx ^ 2 +
      (stepBall arenaW arenaH sp factor d b st).1.vy ^ 2 = sp ^ 2 := by
  obtain ⟨hu, hsin, hsgn, hfx0, hfx1, hfy0, hfy1⟩ := hd
  have hbreach : (moveBall arenaW factor b).y + (moveBall arenaW factor b).radius
      ≥ arenaH := by
    rw [moveBall_y_no_top_clamp arenaW factor b htop, moveBall_radius]
    linarith
  have hstep : stepBall arenaW arenaH sp factor d b st =
      (respawnBall arenaW sp d (moveBall arenaW factor b), handleCoreDamage st) := by
    simp only [stepBall]
    rw [if_pos hbreach]
  rw [hstep]
  have hs : 0 < d.ang.s * sp := mul_pos (by linarith) hsp
  refine ⟨?_, ?_, handleCoreDamage_blocks st, handleCoreDamage_score st, ?_, ?_, ?_, ?_⟩
  · rw [handleCoreDamage_health]; omega
  · rw [handleCoreDamage_phase_of_health st hh, hph]
  · show 0 < |d.ang.s * sp|
    rw [abs_of_pos hs]
    exact hs
  · show b.radius + 20 ≤ (moveBall arenaW factor b).radius + 20 + d.fy * 40
    rw [moveBall_radius]
    nlinarith
  · show (moveBall arenaW factor b).radius + 20 + d.fy * 40 ≤ b.radius + 60
    rw [moveBall_radius]
    nlinarith
  · exact respawnBall_normSq arenaW sp d _ hu hsgn

/-! ### C4: the two escalation branches -/

lemma renormAll_length (s' : ℚ) (a : ℕ → AngleDraw) :
    ∀ (i : ℕ) (l : List Ball), (renormAll s' a i l).length = l.length := by
  intro i l
  induction l generalizing i with
  | nil => rfl
  | cons b rest ih => simp [renormAll, ih]

lemma renormAll_get (s' : ℚ) (a : ℕ → AngleDraw) :
    ∀ (l : List Ball) (i0 j : ℕ) (hj : j < l.length)
      (hj' : j < (renormAll s' a i0 l).length),
      (renormAll s' a i0 l).get ⟨j, hj'⟩ =
        renormBall s' (a (i0 + j)) (l.get ⟨j, hj⟩) := by
  intro l
  induction l with
  | nil => intro i0 j hj _; exact absurd hj (Nat.not_lt_zero j)
  | cons b rest ih =>
    intro i0 j hj hj'
    match j with
    | 0 => rfl
    | j' + 1 =>
      have h1 : j' < rest.length := by simpa using hj
      have h2 : j' < (renormAll s' a (i0 + 1) rest).length := by
        rw [renormAll_length]; exact h1
      have hidx : i0 + (j' + 1) = i0 + 1 + j' := by omega
      simp only [renormAll, List.get_cons_succ]
      rw [ih (i0 + 1) j' h1 h2, hidx]

/-- C4: when escalation fires (now − lastEscalation ≥ 15000), the wave
counter increments by exactly one and the escalation timestamp is reset to
now in both branches; with fewer than 3 live projectiles exactly one ball
is appended at the current speed and the speed scalar is unchanged; with
3 (or more) the speed strictly increases, the ball count is unchanged, and
every ball's velocity becomes a positive multiple of its old velocity with
the new speed as magnitude. -/
theorem escalation_branches (arenaW ts : ℚ) (o : TickOracle) (gs : GameState)
    (hfire : ESCALATION_MS ≤ ts - gs.lastEscalation)
    (hsp : 0 < gs.speed)
    (hatan : ∀ (i : ℕ) (hi : i < gs.balls.length),
      AtanOK (o.renorm i) (gs.balls.get ⟨i, hi⟩).vx (gs.balls.get ⟨i, hi⟩).vy ∧
        ¬((gs.balls.get ⟨i, hi⟩).vx = 0 ∧ (gs.balls.get ⟨i, hi⟩).vy = 0)) :
    (escalate arenaW ts o gs).wave = gs.wave + 1 ∧
    (escalate arenaW ts o gs).lastEscalation = ts ∧
    (gs.balls.length < 3 →
      (escalate arenaW ts o gs).speed = gs.speed ∧
      (escalate arenaW ts o gs).balls =
        gs.balls ++ [makeBall arenaW gs.speed o.escSpawn gs.balls.length]) ∧
    (3 ≤ gs.balls.length →
      gs.speed < (escalate arenaW ts o gs).speed ∧
      (escalate arenaW ts o gs).balls.length = gs.balls.length ∧
      ∀ (i : ℕ) (hi : i < gs.balls.length)
        (hi' : i < (escalate arenaW ts o gs).balls.length),
        ∃ k : ℚ, 0 < k ∧
          ((escalate arenaW ts o gs).balls.get ⟨i, hi'⟩).vx =
            k * (gs.balls.get ⟨i, hi⟩).vx ∧
          ((escalate arenaW ts o gs).balls.get ⟨i, hi'⟩).vy =
            k * (gs.balls.get ⟨i, hi⟩).vy ∧
          ((escalate arenaW ts o gs).balls.get ⟨i, hi'⟩).vx ^ 2 +
            ((escalate arenaW ts o gs).balls.get ⟨i, hi'⟩).vy ^ 2 =
            (escalate arenaW ts o gs).speed ^ 2) := by
  have hfire' : ts - gs.lastEscalation ≥ ESCALATION_MS := hfire
  by_cases hlen : gs.balls.length < 3
  · have he : escalate arenaW ts o gs =
        { gs with wave := gs.wave + 1,
                  balls := gs.balls ++
                    [makeBall arenaW gs.speed o.escSpawn gs.balls.length],
                  lastEscalation := ts } := by
      simp only [escalate]
      rw [if_pos hfire', if_pos hlen]
    rw [he]
    exact ⟨rfl, rfl, fun _ => ⟨rfl, rfl⟩, fun h3 => absurd h3 (by omega)⟩
  · have he : escalate arenaW ts o gs =
        { gs with wave := gs.wave + 1,
                  speed := gs.speed + SPEED_STEP,
                  balls := renormAll (gs.speed + SPEED_STEP) o.renorm 0 gs.balls,
                  lastEscalation := ts } := by
      simp only [escalate]
      rw [if_pos hfire', if_neg hlen]
    rw [he]
    have hstep : (0:ℚ) < SPEED_STEP := by norm_num [SPEED_STEP]
    refine ⟨rfl, rfl, fun h => absurd h hlen, fun _ => ⟨by dsimp only; linarith, ?_, ?_⟩⟩
    · exact renormAll_length _ _ _ _
    · intro i hi hi'
      have hget := renormAll_get (gs.speed + SPEED_STEP) o.renorm gs.balls 0 i hi
        (by simpa [renormAll_length] using hi)
      dsimp only at hi' ⊢
      rw [hget]
      obtain ⟨⟨hu, n, hn0, hc, hsn⟩, hnz⟩ := hatan i hi
      have hn : n ≠ 0 := by
        rintro rfl
        exact hnz ⟨by rw [← hc]; ring, by rw [← hsn]; ring⟩
      have hnpos : 0 < n := lt_of_le_of_ne hn0 (Ne.symm hn)
      have hspos : 0 < gs.speed + SPEED_STEP := by linarith
      refine ⟨(gs.speed + SPEED_STEP) / n, div_pos hspos hnpos, ?_, ?_, ?_⟩
      · show (o.renorm (0 + i)).c * (gs.speed + SPEED_STEP) =
          (gs.speed + SPEED_STEP) / n * (gs.balls.get ⟨i, hi⟩).vx
        rw [Nat.zero_add, ← hc]
        field_simp
        ring
      · show (o.renorm (0 + i)).s * (gs.speed + SPEED_STEP) =
          (gs.speed + SPEED_STEP) / n * (gs.balls.get ⟨i, hi⟩).vy
        rw [Nat.zero_add, ← hsn]
        field_simp
        ring
      · show ((o.renorm (0 + i)).c * (gs.speed + SPEED_STEP)) ^ 2 +
          ((o.renorm (0 + i)).s * (gs.speed + SPEED_STEP)) ^ 2 =
          (gs.speed + SPEED_STEP) ^ 2
        rw [Nat.zero_add]
        linear_combination (gs.speed + SPEED_STEP) ^ 2 * hu

/-! ### Reachable-state invariant: speed magnitude and resource bounds -/

lemma renormAll_normSq (s' : ℚ) (a : ℕ → AngleDraw)
    (hu : ∀ i, (a i).c ^ 2 + (a i).s ^ 2 = 1) :
    ∀ (i : ℕ) (l : List Ball) (b' : Ball), b' ∈ renormAll s' a i l →
      b'.vx ^ 2 + b'.vy ^ 2 = s' ^ 2 := by
  intro i l
  induction l generalizing i with
  | nil => intro b' hb'; simp [renormAll] at hb'
  | cons b rest ih =>
    intro b' hb'
    simp only [renormAll, List.mem_cons] at hb'
    rcases hb' with hb' | hb'
    · rw [hb']
      show ((a i).c * s') ^ 2 + ((a i).s * s') ^ 2 = s' ^ 2
      linear_combination s' ^ 2 * hu i
    · exact ih (i + 1) b' hb'

lemma escalate_normSq (arenaW ts : ℚ) (o : TickOracle) (gs : GameState)
    (ho : OracleOK o)
    (hb : ∀ b ∈ gs.balls, b.vx ^ 2 + b.vy ^ 2 = gs.speed ^ 2) :
    ∀ b ∈ (escalate arenaW ts o gs).balls,
      b.vx ^ 2 + b.vy ^ 2 = (escalate arenaW ts o gs).speed ^ 2 := by
  simp only [escalate]
  split_ifs with h1 h2
  · intro b hbmem
    dsimp only at hbmem ⊢
    rcases List.mem_append.1 hbmem with hm | hm
    · exact hb b hm
    · rw [List.mem_singleton.1 hm]
      exact makeBall_normSq arenaW gs.speed o.escSpawn _ ho.1.1 ho.1.2.2.1
  · intro b hbmem
    dsimp only at hbmem ⊢
    exact renormAll_normSq _ o.renorm ho.2.2 0 gs.balls b hbmem
  · exact hb

/-- The inductive invariant: every ball moves at the global speed
magnitude, and energy and health sit inside their bounds. -/
def Inv (e : Engine) : Prop :=
  (∀ b ∈ e.gs.balls, b.vx ^ 2 + b.vy ^ 2 = e.gs.speed ^ 2) ∧
    0 ≤ e.gs.energy ∧ e.gs.energy ≤ MAX_ENERGY ∧
    0 ≤ e.gs.health ∧ e.gs.health ≤ MAX_HEALTH

lemma inv_start (arenaW : ℚ) (d : SpawnDraw) (hd : SpawnOK d) :
    Inv (startGame arenaW d) := by
  refine ⟨?_, by norm_num [startGame, MAX_ENERGY], by norm_num [startGame, MAX_ENERGY],
    by norm_num [startGame, MAX_HEALTH], by norm_num [startGame, MAX_HEALTH]⟩
  intro b hb
  have : b = makeBall arenaW INITIAL_SPEED d 0 := by
    simpa [startGame] using hb
  rw [this]
  exact makeBall_normSq arenaW INITIAL_SPEED d 0 hd.1 hd.2.2.1

lemma inv_tick (arenaW arenaH : ℚ) (o : TickOracle) (ts : ℚ) (e : Engine)
    (ho : OracleOK o) (he : Inv e) : Inv (tick arenaW arenaH o ts e) := by
  by_cases hp : e.gs.phase = GamePhase.PLAYING
  · rw [tick_eq arenaW arenaH o ts e hp]
    obtain ⟨hsq, he0, he1, hh0, hh1⟩ := he
    have hsq2 : ∀ b ∈ (escalate arenaW ts o (regen ts e.gs)).balls,
        b.vx ^ 2 + b.vy ^ 2 = (escalate arenaW ts o (regen ts e.gs)).speed ^ 2 := by
      apply escalate_normSq arenaW ts o (regen ts e.gs) ho
      rw [regen_balls, regen_speed]
      exact hsq
    have hen := regen_energy_bounds ts e.gs he0 he1
    have hhb := runBalls_health_bounds arenaW arenaH
      (escalate arenaW ts o (regen ts e.gs)).speed (tickFactor ts e.lastFrame)
      o.respawn 0 (escalate arenaW ts o (regen ts e.gs)).balls
      ⟨(escalate arenaW ts o (regen ts e.gs)).blocks,
       (escalate arenaW ts o (regen ts e.gs)).health,
       (escalate arenaW ts o (regen ts e.gs)).score,
       (escalate arenaW ts o (regen ts e.gs)).phase⟩
      (by dsimp only; rw [escalate_health, regen_health]; exact hh0)
      (by dsimp only; rw [escalate_health, regen_health]; exact hh1)
    refine ⟨?_, ?_, ?_, ?_, ?_⟩
    · intro b hb
      dsimp only at hb ⊢
      exact runBalls_normSq arenaW arenaH _ _ o.respawn ho.2.1 0 _ _ hsq2 b hb
    · show 0 ≤ (escalate arenaW ts o (regen ts e.gs)).energy
      rw [escalate_energy]
      exact hen.1
    · show (escalate arenaW ts o (regen ts e.gs)).energy ≤ MAX_ENERGY
      rw [escalate_energy]
      exact hen.2
    · exact hhb.1
    · exact hhb.2
  · rw [tick_not_playing arenaW arenaH o ts e hp]
    exact he

lemma inv_tap (arenaW : ℚ) (color : String) (x y : ℚ) (e : Engine)
    (he : Inv e) : Inv ⟨(handleArenaTap arenaW color x y e.gs).1, e.lastFrame⟩ := by
  obtain ⟨hsq, he0, he1, hh0, hh1⟩ := he
  simp only [handleArenaTap]
  split_ifs with h1 h2 h3
  · exact ⟨hsq, he0, he1, hh0, hh1⟩
  · exact ⟨hsq, he0, he1, hh0, hh1⟩
  · exact ⟨hsq, he0, he1, hh0, hh1⟩
  · refine ⟨hsq, by dsimp only; omega, by dsimp only; omega, hh0, hh1⟩

lemma reachable_inv (arenaW arenaH : ℚ) (e : Engine)
    (h : Reachable arenaW arenaH e) : Inv e := by
  induction h with
  | start d hd => exact inv_start arenaW d hd
  | step e o ts ho _ ih => exact inv_tick arenaW arenaH o ts e ho ih
  | place e color x y _ ih => exact inv_tap arenaW color x y e ih

/-- C5: in every reachable Playing state, every projectile's velocity
magnitude equals the session's global speed scalar (stated on squares:
vx² + vy² = speed², i.e. sqrt(vx² + vy²) = speed for the non-negative
speed). -/
theorem speed_magnitude_invariant (arenaW arenaH : ℚ) (e : Engine)
    (h : Reachable arenaW arenaH e) (hp : e.gs.phase = GamePhase.PLAYING) :
    ∀ b ∈ e.gs.balls, b.vx ^ 2 + b.vy ^ 2 = e.gs.speed ^ 2 :=
  (reachable_inv arenaW arenaH e h).1

/-- C9: in every reachable state — after every tick and after every
placement event — energy stays within [0, MAX_ENERGY] and health within
[0, MAX_HEALTH]. -/
theorem resource_bounds (arenaW arenaH : ℚ) (e : Engine)
    (h : Reachable arenaW arenaH e) :
    0 ≤ e.gs.energy ∧ e.gs.energy ≤ MAX_ENERGY ∧
      0 ≤ e.gs.health ∧ e.gs.health ≤ MAX_HEALTH :=
  (reachable_inv arenaW arenaH e h).2

/-! ### C1, C2, C3: corrected claims -/

lemma regen_noop (ts : ℚ) (gs : GameState)
    (h : ts - gs.lastEnergyRegen < ENERGY_REGEN_MS) : regen ts gs = gs := by
  simp only [regen]
  rw [if_neg (by linarith)]

lemma escalate_noop (arenaW ts : ℚ) (o : TickOracle) (gs : GameState)
    (h : ts - gs.lastEscalation < ESCALATION_MS) : escalate arenaW ts o gs = gs := by
  simp only [escalate]
  rw [if_neg (by linarith)]

lemma escalate_fire_wave (arenaW ts : ℚ) (o : TickOracle) (gs : GameState)
    (h : ESCALATION_MS ≤ ts - gs.lastEscalation) :
    (escalate arenaW ts o gs).wave = gs.wave + 1 ∧
      (escalate arenaW ts o gs).lastEscalation = ts := by
  simp only [escalate]
  rw [if_pos (by linarith)]
  split_ifs <;> exact ⟨rfl, rfl⟩

lemma regen_fire_lastRegen (ts : ℚ) (gs : GameState)
    (h : ENERGY_REGEN_MS ≤ ts - gs.lastEnergyRegen) :
    (regen ts gs).lastEnergyRegen = ts := by
  simp only [regen]
  rw [if_pos (by linarith)]
  split_ifs <;> rfl

lemma moveBall_no_clamp (arenaW factor : ℚ) (b : Ball)
    (hL : 0 < b.x + b.vx * factor - b.radius)
    (hR : b.x + b.vx * factor + b.radius < arenaW)
    (hT : 0 < b.y + b.vy * factor - b.radius) :
    moveBall arenaW factor b =
      { b with x := b.x + b.vx * factor, y := b.y + b.vy * factor } := by
  simp only [moveBall]
  split_ifs <;> first | rfl | (exfalso; linarith)

/-- Fixed oracle draw used by the concrete scenarios: the angle with
cosine 3/5 and sine 4/5, positive sign, both position fractions 0. -/
def demoDraw : SpawnDraw := ⟨⟨3/5, 4/5⟩, 1, 0, 0⟩

def demoOracle : TickOracle := ⟨demoDraw, fun _ => ⟨1, 0⟩, fun _ => demoDraw⟩

/-- Pre-state refuting C1: health 1, two balls — the first about to breach
(y 590, moving straight down), the second about to hit the only block —
frame spacing exactly one reference frame (factor 1). -/
def breachEngine : Engine :=
  ⟨⟨[⟨200, 590, 0, 9/2, "#ff1744", 13⟩, ⟨125, 290, 0, 9/2, "#ff1744", 13⟩],
    [⟨1, 100, 300, 50, 36, "#00ffcc"⟩],
    8, 1, 0, 1, 9/2, 0, 0, 1, GamePhase.PLAYING⟩, 1667/100⟩

/-- C1 counterexample: in the tick in which the first ball's breach takes
health from 1 to 0 (phase becomes DEAD), the breaching ball is still
repositioned to the respawn band (y becomes 33, was 590), and the second
ball still destroys the obstacle and scores: the post-tick state shows a
respawn repositioning, an obstacle removal, and a score increase after the
terminal transition within the same tick, contradicting the claimed
atomicity. -/
theorem terminal_tick_cex :
    breachEngine.gs.health = 1 ∧ breachEngine.gs.score = 0 ∧
    breachEngine.gs.blocks.length = 1 ∧
    (tick 400 600 demoOracle (1667/50) breachEngine).gs.phase = GamePhase.DEAD ∧
    (tick 400 600 demoOracle (1667/50) breachEngine).gs.health = 0 ∧
    (tick 400 600 demoOracle (1667/50) breachEngine).gs.score = 10 ∧
    (tick 400 600 demoOracle (1667/50) breachEngine).gs.blocks = [] ∧
    (tick 400 600 demoOracle (1667/50) breachEngine).gs.balls.map
      (fun b => b.y) = [33, 287] := by
  norm_num [tick, tickFactor, breachEngine, demoOracle, demoDraw, regen,
    escalate, runBalls, stepBall, moveBall, collideBlocks, hits, distSq,
    bounce, handleCoreDamage, respawnBall, makeBall, renormAll, renormBall,
    ballColor, BALL_COLORS, BALL_RADIUS, MAX_ENERGY, MAX_HEALTH,
    ENERGY_REGEN_MS, ESCALATION_MS, INITIAL_SPEED, SPEED_STEP, COLS,
    abs_of_pos, abs_of_nonneg, abs_of_nonpos, abs_neg]

/-- C1 amended: when a tick's damage takes health from 1 to 0, the phase
is DEAD at the end of that tick (the transition happens inside the same
damage application) and every later tick leaves the state untouched; the
same tick does, however, still reposition the breaching projectile and
still process the remaining projectiles (obstacle removals and score
included), as `terminal_tick_cex` exhibits. -/
theorem terminal_transition_amended (arenaW arenaH : ℚ) (o : TickOracle)
    (ts : ℚ) (e : Engine)
    (hp : e.gs.phase = GamePhase.PLAYING) (hh : e.gs.health = 1)
    (h0 : (tick arenaW arenaH o ts e).gs.health = 0) :
    (tick arenaW arenaH o ts e).gs.phase = GamePhase.DEAD ∧
    ∀ (o' : TickOracle) (ts' : ℚ),
      tick arenaW arenaH o' ts' (tick arenaW arenaH o ts e) =
        tick arenaW arenaH o ts e := by
  have hdead : (tick arenaW arenaH o ts e).gs.phase = GamePhase.DEAD := by
    rw [tick_eq arenaW arenaH o ts e hp] at h0 ⊢
    refine runBalls_HP arenaW arenaH _ _ o.respawn 0 _ _ ?_ h0
    intro hz
    exfalso
    dsimp only at hz
    rw [escalate_health, regen_health, hh] at hz
    exact absurd hz (by norm_num)
  exact ⟨hdead, fun o' ts' =>
    tick_not_playing arenaW arenaH o' ts' _ (by rw [hdead]; simp)⟩

/-- C2 counterexample: startGame stores plain zero in both interval
timestamps, so the very first tick after a start, taken at absolute
timestamp 20000, immediately fires escalation (wave jumps to 2, a second
ball spawns) and resets the regeneration timestamp — the elapsed time was
computed as 20000 − 0, not 0, contradicting the claimed sentinel
behavior. -/
theorem first_tick_cex :
    (startGame 400 demoDraw).gs.lastEnergyRegen = 0 ∧
    (startGame 400 demoDraw).gs.lastEscalation = 0 ∧
    (startGame 400 demoDraw).gs.wave = 1 ∧
    (startGame 400 demoDraw).gs.balls.length = 1 ∧
    (tick 400 600 demoOracle 20000 (startGame 400 demoDraw)).gs.wave = 2 ∧
    (tick 400 600 demoOracle 20000 (startGame 400 demoDraw)).gs.balls.length = 2 ∧
    (tick 400 600 demoOracle 20000 (startGame 400 demoDraw)).gs.lastEnergyRegen =
      20000 := by
  norm_num [tick, tickFactor, startGame, demoOracle, demoDraw, regen,
    escalate, runBalls, stepBall, moveBall, collideBlocks, hits, distSq,
    bounce, handleCoreDamage, respawnBall, makeBall, renormAll, renormBall,
    ballColor, BALL_COLORS, BALL_RADIUS, MAX_ENERGY, MAX_HEALTH,
    ENERGY_REGEN_MS, ESCALATION_MS, INITIAL_SPEED, SPEED_STEP, COLS,
    abs_of_pos, abs_of_nonneg, abs_of_nonpos, abs_neg]

/-- C2 amended: startGame resets the regeneration and escalation
timestamps to plain zero (only the frame clock gets a sentinel: the first
tick's integration factor is 0), so the regen/escalation elapsed times of
the first tick are the absolute timestamp T − 0; a first tick with
T ≥ the escalation interval therefore immediately fires escalation
(wave 2, escalation timestamp T) and resets the regeneration timestamp
to T. -/
theorem start_timestamps_amended (arenaW arenaH ts : ℚ) (o : TickOracle)
    (d : SpawnDraw) (h : ESCALATION_MS ≤ ts) :
    (startGame arenaW d).gs.lastEnergyRegen = 0 ∧
    (startGame arenaW d).gs.lastEscalation = 0 ∧
    (startGame arenaW d).lastFrame = 0 ∧
    tickFactor ts 0 = 0 ∧
    (tick arenaW arenaH o ts (startGame arenaW d)).gs.wave = 2 ∧
    (tick arenaW arenaH o ts (startGame arenaW d)).gs.lastEscalation = ts ∧
    (tick arenaW arenaH o ts (startGame arenaW d)).gs.lastEnergyRegen = ts := by
  have h15 : (0:ℚ) < 15000 := by norm_num
  have hEsc : ESCALATION_MS ≤ ts - (regen ts (startGame arenaW d).gs).lastEscalation := by
    rw [regen_lastEscalation]
    show ESCALATION_MS ≤ ts - (0:ℚ)
    simpa using h
  have hts : (900:ℚ) ≤ ts := by
    have : (15000:ℚ) ≤ ts := h
    linarith
  refine ⟨rfl, rfl, rfl, by norm_num [tickFactor], ?_, ?_, ?_⟩
  · rw [tick_eq arenaW arenaH o ts _ rfl]
    show (escalate arenaW ts o (regen ts (startGame arenaW d).gs)).wave = 2
    rw [(escalate_fire_wave arenaW ts o _ hEsc).1, regen_wave]
    rfl
  · rw [tick_eq arenaW arenaH o ts _ rfl]
    show (escalate arenaW ts o (regen ts (startGame arenaW d).gs)).lastEscalation = ts
    exact (escalate_fire_wave arenaW ts o _ hEsc).2
  · rw [tick_eq arenaW arenaH o ts _ rfl]
    show (escalate arenaW ts o (regen ts (startGame arenaW d).gs)).lastEnergyRegen = ts
    rw [escalate_lastRegen]
    apply regen_fire_lastRegen
    show ENERGY_REGEN_MS ≤ ts - (0:ℚ)
    simp only [ENERGY_REGEN_MS]
    linarith

/-- Engine refuting C3: previous frame at 100, one ball in free space. -/
def backwardEngine : Engine :=
  ⟨⟨[⟨200, 300, 0, 9/2, "#ff1744", 13⟩], [], 8, 5, 0, 1, 9/2, 50, 50, 0,
    GamePhase.PLAYING⟩, 100⟩

/-- C3 counterexample: a tick at timestamp 50 after a previous frame at
100 (non-monotonic input) produces the negative time-scale factor
(50 − 100) / 16.67 and integrates the ball with it: the ball moves from
y = 300 to y = 300 − 22500/1667 < 300 although its vertical velocity is
positive — elapsed time is not clamped to a non-negative value. -/
theorem negative_factor_cex :
    tickFactor 50 100 < 0 ∧
    (tick 400 600 demoOracle 50 backwardEngine).gs.balls.map (fun b => b.y) =
      [300 - 22500/1667] ∧
    ((300:ℚ) - 22500/1667 < 300) := by
  norm_num [tick, tickFactor, backwardEngine, demoOracle, demoDraw, regen,
    escalate, runBalls, stepBall, moveBall, collideBlocks, hits, distSq,
    bounce, handleCoreDamage, respawnBall, makeBall, renormAll, renormBall,
    ballColor, BALL_COLORS, BALL_RADIUS, MAX_ENERGY, MAX_HEALTH,
    ENERGY_REGEN_MS, ESCALATION_MS, INITIAL_SPEED, SPEED_STEP, COLS,
    abs_of_pos, abs_of_nonneg, abs_of_nonpos, abs_neg]

/-- C3 amended: the per-tick elapsed time is clamped only from above (at
33 ms); with a timestamp smaller than the stored previous frame the factor
is negative and every projectile clear of the walls is integrated by
position += velocity · factor with that negative factor, i.e. backwards
along its velocity. -/
theorem negative_factor_amended (arenaW arenaH x y vx vy lf ts rg esc : ℚ)
    (o : TickOracle) (c : String)
    (hlf : lf ≠ 0) (hts : ts < lf)
    (hreg : ts - rg < ENERGY_REGEN_MS) (hesc : ts - esc < ESCALATION_MS)
    (hL : 0 < x + vx * tickFactor ts lf - 13)
    (hR : x + vx * tickFactor ts lf + 13 < arenaW)
    (hT : 0 < y + vy * tickFactor ts lf - 13)
    (hB : y + vy * tickFactor ts lf + 13 < arenaH) :
    tickFactor ts lf < 0 ∧
    tick arenaW arenaH o ts
        ⟨⟨[⟨x, y, vx, vy, c, 13⟩], [], 8, 5, 0, 1, 9/2, rg, esc, 0,
          GamePhase.PLAYING⟩, lf⟩ =
      ⟨⟨[⟨x + vx * tickFactor ts lf, y + vy * tickFactor ts lf, vx, vy, c, 13⟩],
        [], 8, 5, 0, 1, 9/2, rg, esc, 0, GamePhase.PLAYING⟩, ts⟩ := by
  have hfac : tickFactor ts lf < 0 := by
    rw [tickFactor, if_neg hlf, min_eq_left (by linarith)]
    apply div_neg_of_neg_of_pos (by linarith)
    norm_num
  refine ⟨hfac, ?_⟩
  rw [tick_eq _ _ _ _ _ rfl]
  rw [regen_noop ts _ (by simpa using hreg), escalate_noop arenaW ts o _
    (by simpa using hesc)]
  have hmv := moveBall_no_clamp arenaW (tickFactor ts lf) ⟨x, y, vx, vy, c, 13⟩
    (by simpa using hL) (by simpa using hR) (by simpa using hT)
  simp only [runBalls, stepBall, hmv]
  rw [if_neg (by rw [ge_iff_le, not_le]; exact hB)]
  simp [collideBlocks]

/-! ### Witnesses: the hypothesised theorems applied at concrete inputs -/

/-- Witness for the amended C1 at the `breachEngine` scenario. -/
theorem terminal_transition_amended_witness :
    (tick 400 600 demoOracle (1667/50) breachEngine).gs.phase = GamePhase.DEAD ∧
    tick 400 600 demoOracle 99999
        (tick 400 600 demoOracle (1667/50) breachEngine) =
      tick 400 600 demoOracle (1667/50) breachEngine := by
  have h := terminal_transition_amended 400 600 demoOracle (1667/50)
    breachEngine rfl rfl
    (by norm_num [tick, tickFactor, breachEngine, demoOracle, demoDraw, regen,
      escalate, runBalls, stepBall, moveBall, collideBlocks, hits, distSq,
      bounce, handleCoreDamage, respawnBall, makeBall, renormAll, renormBall,
      ballColor, BALL_COLORS, BALL_RADIUS, MAX_ENERGY, MAX_HEALTH,
      ENERGY_REGEN_MS, ESCALATION_MS, INITIAL_SPEED, SPEED_STEP, COLS,
      abs_of_pos, abs_of_nonneg, abs_of_nonpos, abs_neg])
  exact ⟨h.1, h.2 demoOracle 99999⟩

/-- Witness for the amended C2 at the first tick timestamp 20000. -/
theorem start_timestamps_amended_witness :
    (startGame 400 demoDraw).gs.lastEnergyRegen = 0 ∧
    (startGame 400 demoDraw).gs.lastEscalation = 0 ∧
    (startGame 400 demoDraw).lastFrame = 0 ∧
    tickFactor 20000 0 = 0 ∧
    (tick 400 600 demoOracle 20000 (startGame 400 demoDraw)).gs.wave = 2 ∧
    (tick 400 600 demoOracle 20000 (startGame 400 demoDraw)).gs.lastEscalation
      = 20000 ∧
    (tick 400 600 demoOracle 20000 (startGame 400 demoDraw)).gs.lastEnergyRegen
      = 20000 :=
  start_timestamps_amended 400 600 20000 demoOracle demoDraw
    (by norm_num [ESCALATION_MS])

/-- Witness for the amended C3 at a concrete non-monotonic tick. -/
theorem negative_factor_amended_witness :
    tickFactor 50 100 < 0 ∧
    tick 400 600 demoOracle 50
        ⟨⟨[⟨200, 300, 0, 9/2, "#ff1744", 13⟩], [], 8, 5, 0, 1, 9/2, 50, 50, 0,
          GamePhase.PLAYING⟩, 100⟩ =
      ⟨⟨[⟨200 + 0 * tickFactor 50 100, 300 + 9/2 * tickFactor 50 100, 0, 9/2,
          "#ff1744", 13⟩],
        [], 8, 5, 0, 1, 9/2, 50, 50, 0, GamePhase.PLAYING⟩, 50⟩ :=
  negative_factor_amended 400 600 200 300 0 (9/2) 100 50 50 50 demoOracle
    "#ff1744" (by norm_num) (by norm_num)
    (by norm_num [ENERGY_REGEN_MS]) (by norm_num [ESCALATION_MS])
    (by norm_num [tickFactor]) (by norm_num [tickFactor])
    (by norm_num [tickFactor]) (by norm_num [tickFactor])

/-- Three balls at speed magnitudes realised by Pythagorean triples,
used to exercise the renormalization branch. -/
def escGs : GameState :=
  ⟨[⟨50, 50, 3, 4, "#ff1744", 13⟩, ⟨60, 60, 0, 5, "#ff9100", 13⟩,
    ⟨70, 70, -4, 3, "#d500f9", 13⟩], [], 8, 5, 0, 7, 9/2, 0, 0, 0,
    GamePhase.PLAYING⟩

def escOracle : TickOracle :=
  ⟨demoDraw,
   fun i => if i = 0 then ⟨3/5, 4/5⟩ else if i = 1 then ⟨0, 1⟩ else ⟨-4/5, 3/5⟩,
   fun _ => demoDraw⟩

/-- Witness for C4 in the renormalization branch (3 balls present). -/
theorem escalation_branches_witness :
    (escalate 400 15000 escOracle escGs).wave = escGs.wave + 1 ∧
    escGs.speed < (escalate 400 15000 escOracle escGs).speed := by
  have h := escalation_branches 400 15000 escOracle escGs
    (by norm_num [ESCALATION_MS, escGs])
    (by norm_num [escGs])
    (by
      intro i hi
      have h3 : i < 3 := by simpa [escGs] using hi
      interval_cases i <;>
        exact ⟨⟨by norm_num [escOracle, escGs], 5,
          by norm_num, by norm_num [escOracle, escGs],
          by norm_num [escOracle, escGs]⟩, by norm_num [escGs]⟩)
  exact ⟨h.1, (h.2.2.2 (by norm_num [escGs])).1⟩

/-- Witness for C5 at the freshly started session. -/
theorem speed_magnitude_invariant_witness :
    (makeBall 400 INITIAL_SPEED demoDraw 0).vx ^ 2 +
      (makeBall 400 INITIAL_SPEED demoDraw 0).vy ^ 2 =
      (startGame 400 demoDraw).gs.speed ^ 2 := by
  have hr : Reachable 400 600 (startGame 400 demoDraw) :=
    Reachable.start demoDraw (by norm_num [SpawnOK, demoDraw])
  exact speed_magnitude_invariant 400 600 _ hr rfl _ (by simp [startGame])

/-- State with zero energy during play, for the C6 scenario. -/
def zeroEnergyGs : GameState :=
  ⟨[], [], 0, 5, 0, 1, 9/2, 0, 0, 0, GamePhase.PLAYING⟩

/-- Witness for C6: a placement at energy 0 is rejected as
insufficient-energy and leaves the obstacles unchanged. -/
theorem placement_gating_witness :
    (handleArenaTap 400 "#00ffcc" 50 50 zeroEnergyGs).2 =
      PlaceResult.rejInsufficientEnergy ∧
    (handleArenaTap 400 "#00ffcc" 50 50 zeroEnergyGs).1.blocks =
      zeroEnergyGs.blocks :=
  (placement_gating 400 "#00ffcc" 50 50 zeroEnergyGs).2.2.2 rfl rfl

/-- Witness for C7 at a concrete breach with health 5. -/
theorem breach_nonterminal_witness :
    (stepBall 400 600 (9/2) 1 demoDraw ⟨200, 590, 0, 9/2, "#ff1744", 13⟩
      ⟨[], 5, 0, GamePhase.PLAYING⟩).2.health =
      (⟨[], 5, 0, GamePhase.PLAYING⟩ : LoopSt).health - 1 ∧
    (stepBall 400 600 (9/2) 1 demoDraw ⟨200, 590, 0, 9/2, "#ff1744", 13⟩
      ⟨[], 5, 0, GamePhase.PLAYING⟩).2.phase = GamePhase.PLAYING ∧
    0 < (stepBall 400 600 (9/2) 1 demoDraw ⟨200, 590, 0, 9/2, "#ff1744", 13⟩
      ⟨[], 5, 0, GamePhase.PLAYING⟩).1.vy := by
  have h := breach_nonterminal 400 600 (9/2) 1 demoDraw
    ⟨200, 590, 0, 9/2, "#ff1744", 13⟩ ⟨[], 5, 0, GamePhase.PLAYING⟩
    (by norm_num [SpawnOK, demoDraw]) (by norm_num) rfl (by norm_num)
    (by norm_num) (by norm_num)
  exact ⟨h.1, h.2.1, h.2.2.2.2.1⟩

/-- Ball whose distance to the block's nearest point is exactly the
radius: 13 below the top face of the block. -/
def edgeBall : Ball := ⟨100, 287, 0, 9/2, "#ff1744", 13⟩

def edgeBlock : Block := ⟨1, 50, 300, 100, 36, "#00ffcc"⟩

/-- Witness for C8: at center-to-rectangle distance exactly the radius the
scan reports no hit. -/
theorem first_hit_collision_witness :
    collideBlocks edgeBall [edgeBlock] = none :=
  (first_hit_collision edgeBall [edgeBlock]).1.mpr (by
    intro blk hm
    rw [List.mem_singleton.1 hm]
    norm_num [hits, distSq, edgeBall, edgeBlock])

/-- Witness for C9 at the freshly started session. -/
theorem resource_bounds_witness :
    0 ≤ (startGame 400 demoDraw).gs.energy ∧
    (startGame 400 demoDraw).gs.energy ≤ MAX_ENERGY ∧
    0 ≤ (startGame 400 demoDraw).gs.health ∧
    (startGame 400 demoDraw).gs.health ≤ MAX_HEALTH := by
  have hr : Reachable 400 600 (startGame 400 demoDraw) :=
    Reachable.start demoDraw (by norm_num [SpawnOK, demoDraw])
  exact resource_bounds 400 600 _ hr

/-- Witness for C10 on the long-pause first tick. -/
theorem per_tick_increment_caps_witness :
    (tick 400 600 demoOracle 20000 (startGame 400 demoDraw)).gs.energy ≤
      (startGame 400 demoDraw).gs.energy + 1 ∧
    (tick 400 600 demoOracle 20000 (startGame 400 demoDraw)).gs.wave ≤
      (startGame 400 demoDraw).gs.wave + 1 :=
  ⟨(per_tick_increment_caps 400 600 demoOracle 20000 (startGame 400 demoDraw)).1,
   (per_tick_increment_caps 400 600 demoOracle 20000 (startGame 400 demoDraw)).2.1⟩

end Breach
